import Mathlib

/-!
Shallow embedding of the offline-first recording/transcription queue of the
InVoice app.

Embedded source files:
* `src/services/offlineQueue.ts` (`OfflineQueueService`): queue store,
  `getQueueStatus`, `processQueue` (drain), `processItem`, `processVoiceNote`,
  `processWorkflowStep`, `removeFromQueue`, `incrementRetryCount`.
* `src/hooks/useOfflineAudioRecording.ts`: `stopRecording` / `processImmediately`
  (the submit entry point).
* `src/services/transcription.ts`: only the `TranscriptionResult` shape; the
  Transcription Client itself is an external collaborator and is modelled as an
  oracle `tr : String → TranscriptionResult`.

Timestamps (ISO strings produced by `Date`/`toISOString` in the source) are
modelled as natural numbers; the wall clock consumed during a drain is an
explicit `clock : Nat → Nat` sampled once per processed item.  JavaScript
string-truthiness (`undefined`/`""` falsy) is modelled explicitly on
`Option String` values.
-/

/-- `isPrefixChars pat l` : `pat` is a prefix of `l` (character lists). -/
def isPrefixChars : List Char → List Char → Bool
  | [], _ => true
  | _ :: _, [] => false
  | a :: as, b :: bs => a = b && isPrefixChars as bs

/-- `containsSub pat l` : `pat` occurs as a contiguous substring of `l`. -/
def containsSub (pat : List Char) : List Char → Bool
  | [] => isPrefixChars pat []
  | c :: t => isPrefixChars pat (c :: t) || containsSub pat t

/-- JavaScript `s.includes(pat)`. -/
def jsIncludes (s pat : String) : Bool := containsSub pat.toList s.toList

/-- JavaScript `s.startsWith(pre)`. -/
def jsStartsWith (s pre : String) : Bool := isPrefixChars pre.toList s.toList

/-- ASCII whitespace recognised by the model of `String.prototype.trim`. -/
def jsWs (c : Char) : Bool := c = ' ' || c = '\t' || c = '\n' || c = '\r'

/-- JavaScript `s.trim()`. -/
def jsTrim (s : String) : String :=
  ⟨((s.toList.dropWhile jsWs).reverse.dropWhile jsWs).reverse⟩

/-- Truthiness of an optional string: `undefined` and `""` are falsy. -/
def jsTruthy : Option String → Bool
  | none => false
  | some s => s ≠ ""

/-- JavaScript `a || b` on optional strings. -/
def jsOrElse : Option String → Option String → Option String
  | some s, b => if s = "" then b else some s
  | none, b => b

/-- JavaScript `a || d` where `d` is a plain string default. -/
def jsOrDefault (o : Option String) (d : String) : String :=
  match o with
  | some s => if s = "" then d else s
  | none => d

/-- `jobType` of a queue entry (`'voice_note' | 'workflow_step'`). -/
inductive QueueJobType where
  | voice_note
  | workflow_step
deriving DecidableEq

/-- `PendingTranscription` (src/services/offlineQueue.ts).  `timestamp` is the
enqueue time (`none` models an absent/empty string); `metadataJobId` models
`metadata?.jobId`. -/
structure PendingTranscription where
  id : String
  audioUri : String
  localAudioPath : String
  timestamp : Option Nat
  jobType : QueueJobType
  stepIndex : Option Nat
  retryCount : Nat
  maxRetries : Nat
  jobId : Option String
  metadataJobId : Option String
deriving DecidableEq

/-- Job record status (`src/services/jobStorage.ts` union type). -/
inductive JobStatus where
  | in_progress
  | completed
  | pending
  | pending_transcription
deriving DecidableEq

/-- `JobData` (src/services/jobStorage.ts interface). -/
structure JobData where
  id : String
  title : Option String
  customer : String
  jobType : String
  equipment : String
  cost : String
  location : String
  additionalNotes : String
  dateCreated : Nat
  dateCompleted : Option Nat
  status : JobStatus
  totalSteps : Nat
  completedSteps : Nat
deriving DecidableEq

/-- `TranscriptionResult` (src/services/transcription.ts). -/
structure TranscriptionResult where
  success : Bool
  text : Option String
  error : Option String
deriving DecidableEq

/-- Modelled from the spec: the Job Storage collaborator's `saveRecord`
(`JobStorageService.saveJob`, whose source file `src/services/jobStorage.ts`
is not under `src/`): persist a record, overwriting the stored record with the
same id when one exists and appending a new record otherwise. -/
def saveJob (j : JobData) (jobs : List JobData) : List JobData :=
  if jobs.any (fun x => x.id = j.id) then
    jobs.map (fun x => if x.id = j.id then j else x)
  else jobs ++ [j]

/-- Count of jobs whose `customer` starts with `"Voice Recording "`
(`voiceRecordingCount` in `processVoiceNote`). -/
def voiceRecordingCount (jobs : List JobData) : Nat :=
  (jobs.filter (fun j => jsStartsWith j.customer "Voice Recording ")).length

/-- Count of completed voice-note records, following the spec's words
("count of existing completed voice-note records"); used to compare the
spec's numbering rule with the code's. -/
def specCompletedVoiceNoteCount (jobs : List JobData) : Nat :=
  (jobs.filter (fun j => j.jobType == "Voice Note" && j.status == JobStatus.completed)).length

/-- The `jobData` object built by `OfflineQueueService.processVoiceNote`. -/
def newVoiceJob (now : Nat) (transcription : String) (item : PendingTranscription)
    (jobs : List JobData) : JobData :=
  { id := toString now
    title := none
    customer := "Voice Recording " ++ toString (voiceRecordingCount jobs + 1)
    jobType := "Voice Note"
    equipment := ""
    cost := ""
    location := ""
    additionalNotes := transcription
    dateCreated := item.timestamp.getD now
    dateCompleted := some now
    status := JobStatus.completed
    totalSteps := 1
    completedSteps := 1 }

/-- `OfflineQueueService.processVoiceNote`: builds a fresh completed record and
saves it (the record id is `Date.now().toString()`, modelled as `toString now`). -/
def processVoiceNote (now : Nat) (transcription : String) (item : PendingTranscription)
    (jobs : List JobData) : List JobData :=
  saveJob (newVoiceJob now transcription item jobs) jobs

/-- First job with the strictly greatest `dateCreated` among the
`pending_transcription` jobs: `pendingJobs.sort((a, b) => dateB - dateA)[0]`
with JavaScript's stable sort. -/
def mostRecentPending (jobs : List JobData) : Option JobData :=
  (jobs.filter (fun j => j.status == JobStatus.pending_transcription)).foldl
    (fun best j =>
      match best with
      | none => some j
      | some b => if b.dateCreated < j.dateCreated then some j else some b) none

/-- `item.jobId || item.metadata?.jobId`. -/
def effectiveTargetId (item : PendingTranscription) : Option String :=
  jsOrElse item.jobId item.metadataJobId

/-- Target-record resolution in `processWorkflowStep`: lookup by the effective
target id when truthy, falling back to the most recent `pending_transcription`
job. -/
def resolveTarget (item : PendingTranscription) (jobs : List JobData) : Option JobData :=
  let byId : Option JobData :=
    match effectiveTargetId item with
    | some tid => if tid = "" then none else jobs.find? (fun j => j.id == tid)
    | none => none
  match byId with
  | some j => some j
  | none => mostRecentPending jobs

/-- The `switch (item.stepIndex)` field update; `none` models the `default`
branch (unknown step index: the function returns without saving). -/
def applyStep : Option Nat → String → JobData → Option JobData
  | some 0, t, j => some { j with customer := t }
  | some 1, t, j => some { j with jobType := t }
  | some 2, t, j => some { j with equipment := t }
  | some 3, t, j => some { j with cost := t }
  | some 4, t, j => some { j with additionalNotes := t }
  | _, _, _ => none

/-- The `allStepsProcessed` check in `processWorkflowStep` (checks the
customer, jobType, equipment and cost fields, not the notes field). -/
def allStepsProcessed (j : JobData) : Bool :=
  j.customer != "Pending Transcription" &&
  j.jobType != "Pending Transcription" &&
  j.equipment != "Pending Transcription" &&
  j.cost != "Pending Transcription" &&
  !(jsIncludes j.customer "[Offline Recording") &&
  !(jsIncludes j.jobType "[Offline Recording") &&
  !(jsIncludes j.equipment "[Offline Recording") &&
  !(jsIncludes j.cost "[Offline Recording")

/-- Marks the updated job completed (with completion time `now`) when
`allStepsProcessed` holds. -/
def completeIfReady (now : Nat) (j : JobData) : JobData :=
  if allStepsProcessed j then
    { j with status := JobStatus.completed, dateCompleted := some now }
  else j

/-- `OfflineQueueService.processWorkflowStep`. -/
def processWorkflowStep (now : Nat) (transcription : String) (item : PendingTranscription)
    (jobs : List JobData) : List JobData :=
  match resolveTarget item jobs with
  | none => jobs
  | some jobToUpdate =>
    match applyStep item.stepIndex transcription jobToUpdate with
    | none => jobs
    | some updated => saveJob (completeIfReady now updated) jobs

/-- Dispatch on the queue entry's job type (`processItem`'s two branches). -/
def reconcile (now : Nat) (text : String) (item : PendingTranscription)
    (jobs : List JobData) : List JobData :=
  match item.jobType with
  | QueueJobType.voice_note => processVoiceNote now text item jobs
  | QueueJobType.workflow_step => processWorkflowStep now text item jobs

/-- Outcome of `OfflineQueueService.processItem` for one queue entry:
`ok = false` models the thrown error (missing file, failed or blank
transcription); `calls` records the audio paths handed to the
Transcription Client. -/
structure ItemResult where
  ok : Bool
  files : List String
  jobs : List JobData
  calls : List String

/-- `OfflineQueueService.processItem`: check the durable audio file, call the
Transcription Client, reconcile on success and delete the audio file. -/
def processItem (tr : String → TranscriptionResult) (now : Nat)
    (item : PendingTranscription) (files : List String) (jobs : List JobData) : ItemResult :=
  if item.localAudioPath ∈ files then
    let r := tr item.localAudioPath
    match r.success, r.text with
    | true, some t =>
      if jsTrim t = "" then ⟨false, files, jobs, [item.localAudioPath]⟩
      else
        ⟨true, files.filter (fun p => p ≠ item.localAudioPath),
          reconcile now t item jobs, [item.localAudioPath]⟩
    | _, _ => ⟨false, files, jobs, [item.localAudioPath]⟩
  else ⟨false, files, jobs, []⟩

/-- Shared mutable state: the persisted queue list, the job-record store, the
durable audio files and the in-memory `isProcessing` flag. -/
structure SysState where
  queue : List PendingTranscription
  jobs : List JobData
  files : List String
  isProcessing : Bool
deriving DecidableEq

/-- Accumulator of the drain loop: evolving state, Transcription Client call
log, and the number of clock samples consumed. -/
structure DrainAcc where
  st : SysState
  calls : List String
  k : Nat

/-- One iteration of the `for (const item of pendingItems)` loop in
`processQueue`: on success remove the entry (`removeFromQueue`), on a thrown
error increment its retry count in place (`incrementRetryCount`). -/
def drainStep (tr : String → TranscriptionResult) (clock : Nat → Nat)
    (acc : DrainAcc) (item : PendingTranscription) : DrainAcc :=
  let r := processItem tr (clock acc.k) item acc.st.files acc.st.jobs
  if r.ok then
    ⟨⟨acc.st.queue.filter (fun j => j.id ≠ item.id), r.jobs, r.files, acc.st.isProcessing⟩,
      acc.calls ++ r.calls, acc.k + 1⟩
  else
    ⟨⟨acc.st.queue.map (fun j =>
          if j.id = item.id then { j with retryCount := j.retryCount + 1 } else j),
        acc.st.jobs, acc.st.files, acc.st.isProcessing⟩,
      acc.calls ++ r.calls, acc.k + 1⟩

/-- The eligible entries of a drain pass
(`queue.filter(item => item.retryCount < item.maxRetries)`). -/
def pendingOf (queue : List PendingTranscription) : List PendingTranscription :=
  queue.filter (fun i => i.retryCount < i.maxRetries)

/-- `QueueStatus` (src/services/offlineQueue.ts). -/
structure QueueStatus where
  total : Nat
  pending : Nat
  failed : Nat
  completed : Nat
deriving DecidableEq

/-- `OfflineQueueService.getQueueStatus`. -/
def getQueueStatus (queue : List PendingTranscription) : QueueStatus :=
  ⟨queue.length,
    (queue.filter (fun i => i.retryCount < i.maxRetries)).length,
    (queue.filter (fun i => i.retryCount ≥ i.maxRetries)).length,
    0⟩

/-- `OfflineQueueService.processQueue` (drain): skip when `isProcessing` is
set, otherwise fold the per-item loop over the snapshot of eligible entries
and clear the flag in the `finally` block.  Returns the final state and the
Transcription Client call log.  The function is total: every per-item error is
caught inside the loop, matching the code's catch-all handlers. -/
def processQueue (tr : String → TranscriptionResult) (clock : Nat → Nat)
    (s : SysState) : SysState × List String :=
  if s.isProcessing then (s, [])
  else
    let res := (pendingOf s.queue).foldl (drainStep tr clock)
      ⟨{ s with isProcessing := true }, [], 0⟩
    ({ res.st with isProcessing := false }, res.calls)

/-- Outcome of `stopRecording` in `useOfflineAudioRecording`. -/
inductive StopOutcome where
  | noRecording
  | queuedOutcome (queueId : String) (audioUri : String)
  | transcribed (text : String)
  | errorOutcome (message : String)
deriving DecidableEq

/-- Result of a `stopRecording` call: outcome, updated queue and audio files,
and whether the Transcription Client was invoked. -/
structure StopResult where
  outcome : StopOutcome
  queue : List PendingTranscription
  files : List String
  clientCalled : Bool
deriving DecidableEq

/-- Durable audio directory (`OFFLINE_AUDIO_DIR`). -/
def offlineAudioDir : String := "offline_audio/"

/-- `OfflineQueueService.addToQueue`: copy the audio artifact into durable
storage and append a fresh entry (retryCount 0, maxRetries 3).  The entry id
is `Date.now().toString() + '_' + <random suffix>`; the random suffix is the
explicit parameter `freshSuffix`. -/
def addToQueue (now : Nat) (freshSuffix : String) (audioUri : String)
    (jobType : QueueJobType) (metadataJobId : Option String) (stepIndex : Option Nat)
    (queue : List PendingTranscription) (files : List String) :
    String × List PendingTranscription × List String :=
  let id := toString now ++ "_" ++ freshSuffix
  let localPath := offlineAudioDir ++ "audio_" ++ id ++ ".mp3"
  let entry : PendingTranscription :=
    { id := id, audioUri := audioUri, localAudioPath := localPath,
      timestamp := some now, jobType := jobType, stepIndex := stepIndex,
      retryCount := 0, maxRetries := 3,
      jobId := metadataJobId, metadataJobId := metadataJobId }
  (id, queue ++ [entry], files ++ [localPath])

/-- `processImmediately` in `useOfflineAudioRecording`: call the Transcription
Client; surface the trimmed text on success, throw (an error outcome) on
failure or blank text.  Never touches the queue. -/
def processImmediately (tr : String → TranscriptionResult) (audioUri : String)
    (queue : List PendingTranscription) (files : List String) : StopResult :=
  let r := tr audioUri
  match r.success, r.text with
  | true, some t =>
    if jsTrim t = "" then
      ⟨StopOutcome.errorOutcome (jsOrDefault r.error "Transcription failed"), queue, files, true⟩
    else ⟨StopOutcome.transcribed (jsTrim t), queue, files, true⟩
  | _, _ =>
    ⟨StopOutcome.errorOutcome (jsOrDefault r.error "Transcription failed"), queue, files, true⟩

/-- `stopRecording` in `useOfflineAudioRecording` (the submit entry point):
queue the recording when offline or when the api key is falsy, otherwise
process immediately. -/
def stopRecording (tr : String → TranscriptionResult) (now : Nat) (freshSuffix : String)
    (isOffline : Bool) (apiKey : Option String) (jobType : QueueJobType)
    (stepIndex : Option Nat) (metadataJobId : Option String) (audioUri : Option String)
    (queue : List PendingTranscription) (files : List String) : StopResult :=
  match audioUri with
  | none => ⟨StopOutcome.noRecording, queue, files, false⟩
  | some uri =>
    if isOffline || !(jsTruthy apiKey) then
      match addToQueue now freshSuffix uri jobType metadataJobId stepIndex queue files with
      | (qid, q2, f2) => ⟨StopOutcome.queuedOutcome qid uri, q2, f2, false⟩
    else processImmediately tr uri queue files

/-- Success condition of a Transcription Client result as `processItem` and
`processImmediately` evaluate it: `success` set and a non-blank text. -/
def trOk (r : TranscriptionResult) : Prop :=
  r.success = true ∧ ∃ t, r.text = some t ∧ jsTrim t ≠ ""

/-- Boolean form of `trOk`, used for a kernel-reducible decision procedure. -/
def trOkB (r : TranscriptionResult) : Bool :=
  r.success && (match r.text with
    | some t => jsTrim t != ""
    | none => false)

instance (r : TranscriptionResult) : Decidable (trOk r) :=
  decidable_of_iff (trOkB r = true)
    (by unfold trOkB trOk; cases ht : r.text <;> cases hs : r.success <;> simp [ht, hs])

/-- Transcription Client oracle that always answers with the text `"hello"`. -/
def cexTrHello : String → TranscriptionResult := fun _ => ⟨true, some "hello", none⟩

/-- Transcription Client oracle that fails exactly on the path `"p2"`. -/
def cexTrFailP2 : String → TranscriptionResult := fun p =>
  if p = "p2" then ⟨false, none, some "boom"⟩ else ⟨true, some "ok", none⟩

/-- Transcription Client oracle answering success with whitespace-only text. -/
def cexTrBlank : String → TranscriptionResult := fun _ => ⟨true, some "   ", none⟩

/-- Queue entry whose durably stored audio file is missing. -/
def cexMissingItem : PendingTranscription :=
  { id := "m1", audioUri := "uri-m1", localAudioPath := "offline_audio/audio_m1.mp3",
    timestamp := some 10, jobType := QueueJobType.voice_note, stepIndex := none,
    retryCount := 0, maxRetries := 3, jobId := none, metadataJobId := none }

/-- State holding only `cexMissingItem`, with an empty audio directory. -/
def cexMissingState : SysState :=
  { queue := [cexMissingItem], jobs := [], files := [], isProcessing := false }

/-- Queue entry whose retry count has reached its limit. -/
def cexFailedItem : PendingTranscription :=
  { id := "f1", audioUri := "uri-f1", localAudioPath := "offline_audio/audio_f1.mp3",
    timestamp := some 11, jobType := QueueJobType.voice_note, stepIndex := none,
    retryCount := 3, maxRetries := 3, jobId := none, metadataJobId := none }

/-- State holding only the exhausted entry `cexFailedItem`. -/
def cexFailedState : SysState :=
  { queue := [cexFailedItem], jobs := [], files := ["offline_audio/audio_f1.mp3"],
    isProcessing := false }

/-- Eligible queue entry with file path `"p1"`. -/
def cexEntry1 : PendingTranscription :=
  { id := "1", audioUri := "u1", localAudioPath := "p1", timestamp := some 1,
    jobType := QueueJobType.workflow_step, stepIndex := some 9, retryCount := 0,
    maxRetries := 3, jobId := none, metadataJobId := none }

/-- Eligible queue entry with file path `"p2"` (the failing one in C6). -/
def cexEntry2 : PendingTranscription :=
  { id := "2", audioUri := "u2", localAudioPath := "p2", timestamp := some 2,
    jobType := QueueJobType.workflow_step, stepIndex := some 9, retryCount := 0,
    maxRetries := 3, jobId := none, metadataJobId := none }

/-- Eligible queue entry with file path `"p3"`. -/
def cexEntry3 : PendingTranscription :=
  { id := "3", audioUri := "u3", localAudioPath := "p3", timestamp := some 3,
    jobType := QueueJobType.workflow_step, stepIndex := some 9, retryCount := 0,
    maxRetries := 3, jobId := none, metadataJobId := none }

/-- A blank-text entry used to exercise the empty-transcription branch. -/
def cexBlankItem : PendingTranscription :=
  { id := "b1", audioUri := "ub", localAudioPath := "pb", timestamp := some 4,
    jobType := QueueJobType.voice_note, stepIndex := none, retryCount := 0,
    maxRetries := 3, jobId := none, metadataJobId := none }

/-- State holding only `cexBlankItem`, whose audio file exists. -/
def cexBlankState : SysState :=
  { queue := [cexBlankItem], jobs := [], files := ["pb"], isProcessing := false }

/-- Workflow job with only the cost and notes fields still unresolved. -/
def cexPendingJob : JobData :=
  { id := "A", title := none, customer := "Bob", jobType := "Repair",
    equipment := "Drill", cost := "Pending Transcription", location := "",
    additionalNotes := "Pending Transcription", dateCreated := 10,
    dateCompleted := none, status := JobStatus.pending_transcription,
    totalSteps := 5, completedSteps := 5 }

/-- Queue entry carrying the cost answer (step index 3) for job `"A"`. -/
def cexCostItem : PendingTranscription :=
  { id := "q1", audioUri := "uq1", localAudioPath := "pq1", timestamp := some 5,
    jobType := QueueJobType.workflow_step, stepIndex := some 3, retryCount := 0,
    maxRetries := 3, jobId := some "A", metadataJobId := none }

/-- Pending voice-note record as `handleOfflineVoiceQueued` creates them
(jobType `"Voice Note"`, status `pending_transcription`, empty notes). -/
def cexPendingVoice : JobData :=
  { id := "V", title := some "Voice Recording 1", customer := "Voice Recording",
    jobType := "Voice Note", equipment := "", cost := "", location := "",
    additionalNotes := "", dateCreated := 50, dateCompleted := none,
    status := JobStatus.pending_transcription, totalSteps := 1, completedSteps := 0 }

/-- Standalone voice-note queue entry. -/
def cexVoiceItem : PendingTranscription :=
  { id := "q2", audioUri := "uq2", localAudioPath := "pq2", timestamp := some 60,
    jobType := QueueJobType.voice_note, stepIndex := none, retryCount := 0,
    maxRetries := 3, jobId := none, metadataJobId := none }

/-- Record named `"Voice Recording 1"` that is NOT a completed voice note. -/
def cexMisnamedVoice : JobData :=
  { id := "V1", title := none, customer := "Voice Recording 1", jobType := "Voice Note",
    equipment := "", cost := "", location := "", additionalNotes := "older note",
    dateCreated := 20, dateCompleted := none, status := JobStatus.pending_transcription,
    totalSteps := 1, completedSteps := 0 }

/-- Standalone voice-note queue entry for the numbering counterexample. -/
def cexVoiceItem2 : PendingTranscription :=
  { id := "q3", audioUri := "uq3", localAudioPath := "pq3", timestamp := some 70,
    jobType := QueueJobType.voice_note, stepIndex := none, retryCount := 0,
    maxRetries := 3, jobId := none, metadataJobId := none }

/-- Most recent pending workflow job: every field but cost resolved. -/
def cexJobRecent : JobData :=
  { id := "A", title := none, customer := "Alice", jobType := "Fix",
    equipment := "Hammer", cost := "Pending Transcription", location := "",
    additionalNotes := "", dateCreated := 10, dateCompleted := none,
    status := JobStatus.pending_transcription, totalSteps := 5, completedSteps := 5 }

/-- Older pending workflow job with placeholder fields. -/
def cexJobOlder : JobData :=
  { id := "B", title := none, customer := "Pending Transcription",
    jobType := "Pending Transcription", equipment := "Pending Transcription",
    cost := "Pending Transcription", location := "", additionalNotes := "",
    dateCreated := 5, dateCompleted := none,
    status := JobStatus.pending_transcription, totalSteps := 5, completedSteps := 5 }

/-- Workflow-step entry with NO target job id (fallback resolution). -/
def cexFallbackItem : PendingTranscription :=
  { id := "q4", audioUri := "uq4", localAudioPath := "pq4", timestamp := some 6,
    jobType := QueueJobType.workflow_step, stepIndex := some 3, retryCount := 0,
    maxRetries := 3, jobId := none, metadataJobId := none }

/-- Workflow job used by the idempotence witness. -/
def cexJobW : JobData :=
  { id := "W", title := none, customer := "Carol", jobType := "Install",
    equipment := "Ladder", cost := "Pending Transcription", location := "",
    additionalNotes := "", dateCreated := 30, dateCompleted := none,
    status := JobStatus.pending_transcription, totalSteps := 5, completedSteps := 5 }

/-- Workflow-step entry explicitly targeting job `"W"`. -/
def cexItemW : PendingTranscription :=
  { id := "q5", audioUri := "uq5", localAudioPath := "pq5", timestamp := some 7,
    jobType := QueueJobType.workflow_step, stepIndex := some 3, retryCount := 0,
    maxRetries := 3, jobId := some "W", metadataJobId := none }

theorem processItem_ok_of_not_trOk (tr : String → TranscriptionResult) (now : Nat)
    (item : PendingTranscription) (files : List String) (jobs : List JobData)
    (h : ¬ trOk (tr item.localAudioPath)) :
    (processItem tr now item files jobs).ok = false := by
  unfold processItem
  by_cases hf : item.localAudioPath ∈ files
  · simp only [hf, if_true]
    rcases hs : (tr item.localAudioPath).success with _ | _
    · rcases ht : (tr item.localAudioPath).text with _ | t <;> simp [hs, ht]
    · rcases ht : (tr item.localAudioPath).text with _ | t
      · simp [hs, ht]
      · by_cases hb : jsTrim t = ""
        · simp [hs, ht, hb]
        · exact absurd ⟨hs, t, ht, hb⟩ h
  · simp [hf]

theorem processItem_ok_of_file_missing (tr : String → TranscriptionResult) (now : Nat)
    (item : PendingTranscription) (files : List String) (jobs : List JobData)
    (h : item.localAudioPath ∉ files) :
    (processItem tr now item files jobs).ok = false := by
  unfold processItem
  simp [h]

theorem processItem_files_subset (tr : String → TranscriptionResult) (now : Nat)
    (item : PendingTranscription) (files : List String) (jobs : List JobData) :
    ∀ q ∈ (processItem tr now item files jobs).files, q ∈ files := by
  intro q hq
  unfold processItem at hq
  by_cases hf : item.localAudioPath ∈ files
  · simp only [hf, if_true] at hq
    rcases hs : (tr item.localAudioPath).success with _ | _ <;>
      rcases ht : (tr item.localAudioPath).text with _ | t <;>
        simp only [hs, ht] at hq
    · exact hq
    · exact hq
    · exact hq
    · by_cases hb : jsTrim t = ""
      · simp only [hb, if_true] at hq
        exact hq
      · simp only [hb, if_false] at hq
        exact (List.mem_filter.mp hq).1
  · simp only [hf, if_false] at hq
    exact hq

theorem processItem_calls_in_files (tr : String → TranscriptionResult) (now : Nat)
    (item : PendingTranscription) (files : List String) (jobs : List JobData) :
    ∀ q ∈ (processItem tr now item files jobs).calls, q ∈ files := by
  intro q hq
  unfold processItem at hq
  by_cases hf : item.localAudioPath ∈ files
  · simp only [hf, if_true] at hq
    rcases hs : (tr item.localAudioPath).success with _ | _ <;>
      rcases ht : (tr item.localAudioPath).text with _ | t <;>
        simp only [hs, ht] at hq
    · simp at hq; exact hq ▸ hf
    · simp at hq; exact hq ▸ hf
    · simp at hq; exact hq ▸ hf
    · by_cases hb : jsTrim t = "" <;> simp only [hb, if_true, if_false] at hq <;>
        (simp at hq; exact hq ▸ hf)
  · simp only [hf, if_false] at hq
    simp at hq

theorem drainStep_preserves_other (tr : String → TranscriptionResult) (clock : Nat → Nat)
    (e j : PendingTranscription) (acc : DrainAcc) (hne : e.id ≠ j.id)
    (hj : j ∈ acc.st.queue) : j ∈ (drainStep tr clock acc e).st.queue := by
  unfold drainStep
  by_cases hok : (processItem tr (clock acc.k) e acc.st.files acc.st.jobs).ok
  · simp only [hok, if_true]
    exact List.mem_filter.mpr ⟨hj, by simp [Ne.symm hne]⟩
  · simp only [hok, if_false]
    exact List.mem_map.mpr ⟨j, hj, by rw [if_neg (fun h => hne h.symm)]⟩

theorem foldl_drain_preserves_other (tr : String → TranscriptionResult) (clock : Nat → Nat)
    (j : PendingTranscription) :
    ∀ (L : List PendingTranscription), (∀ e ∈ L, e.id ≠ j.id) →
      ∀ acc : DrainAcc, j ∈ acc.st.queue → j ∈ (L.foldl (drainStep tr clock) acc).st.queue
  | [], _, _, hj => hj
  | e :: L, h, acc, hj => by
    simp only [List.foldl_cons]
    exact foldl_drain_preserves_other tr clock j L (fun x hx => h x (List.mem_cons_of_mem e hx))
      (drainStep tr clock acc e)
      (drainStep_preserves_other tr clock e j acc (h e (List.mem_cons_self e L)) hj)

theorem drainStep_files_subset (tr : String → TranscriptionResult) (clock : Nat → Nat)
    (e : PendingTranscription) (acc : DrainAcc) :
    ∀ q ∈ (drainStep tr clock acc e).st.files, q ∈ acc.st.files := by
  intro q hq
  unfold drainStep at hq
  by_cases hok : (processItem tr (clock acc.k) e acc.st.files acc.st.jobs).ok
  · simp only [hok, if_true] at hq
    exact processItem_files_subset tr (clock acc.k) e acc.st.files acc.st.jobs q hq
  · simp only [hok, if_false] at hq
    exact hq

theorem drainStep_calls_growth (tr : String → TranscriptionResult) (clock : Nat → Nat)
    (e : PendingTranscription) (acc : DrainAcc) :
    ∀ q ∈ (drainStep tr clock acc e).calls, q ∈ acc.calls ∨ q ∈ acc.st.files := by
  intro q hq
  unfold drainStep at hq
  by_cases hok : (processItem tr (clock acc.k) e acc.st.files acc.st.jobs).ok <;>
    simp only [hok, if_true, if_false] at hq <;>
    rcases List.mem_append.mp hq with h | h
  · exact Or.inl h
  · exact Or.inr (processItem_calls_in_files tr (clock acc.k) e acc.st.files acc.st.jobs q h)
  · exact Or.inl h
  · exact Or.inr (processItem_calls_in_files tr (clock acc.k) e acc.st.files acc.st.jobs q h)

theorem foldl_drain_path_untouched (tr : String → TranscriptionResult) (clock : Nat → Nat)
    (p : String) :
    ∀ (L : List PendingTranscription) (acc : DrainAcc), p ∉ acc.st.files → p ∉ acc.calls →
      p ∉ (L.foldl (drainStep tr clock) acc).st.files ∧
        p ∉ (L.foldl (drainStep tr clock) acc).calls
  | [], acc, hf, hc => ⟨hf, hc⟩
  | e :: L, acc, hf, hc => by
    simp only [List.foldl_cons]
    refine foldl_drain_path_untouched tr clock p L (drainStep tr clock acc e) ?_ ?_
    · exact fun h => hf (drainStep_files_subset tr clock e acc p h)
    · exact fun h => by
        rcases drainStep_calls_growth tr clock e acc p h with h' | h'
        · exact hc h'
        · exact hf h'

theorem foldl_drain_files_subset (tr : String → TranscriptionResult) (clock : Nat → Nat) :
    ∀ (L : List PendingTranscription) (acc : DrainAcc),
      ∀ q ∈ (L.foldl (drainStep tr clock) acc).st.files, q ∈ acc.st.files
  | [], _, _, hq => hq
  | e :: L, acc, q, hq => by
    simp only [List.foldl_cons] at hq
    exact drainStep_files_subset tr clock e acc q
      (foldl_drain_files_subset tr clock L (drainStep tr clock acc e) q hq)

/-- Rewriting lemma: a drain pass with the flag clear is the fold of
`drainStep` over the eligible entries, with the flag cleared at the end. -/
theorem processQueue_eq_of_not_processing (tr : String → TranscriptionResult) (clock : Nat → Nat)
    (s : SysState) (hp : s.isProcessing = false) :
    processQueue tr clock s =
      ({ ((pendingOf s.queue).foldl (drainStep tr clock)
            ⟨{ s with isProcessing := true }, [], 0⟩).st with isProcessing := false },
        ((pendingOf s.queue).foldl (drainStep tr clock)
            ⟨{ s with isProcessing := true }, [], 0⟩).calls) := by
  unfold processQueue
  rw [hp]
  simp

theorem drainStep_queue_of_fail (tr : String → TranscriptionResult) (clock : Nat → Nat)
    (e : PendingTranscription) (acc : DrainAcc)
    (h : (processItem tr (clock acc.k) e acc.st.files acc.st.jobs).ok = false) :
    (drainStep tr clock acc e).st.queue =
      acc.st.queue.map (fun j =>
        if j.id = e.id then { j with retryCount := j.retryCount + 1 } else j) := by
  unfold drainStep
  simp only [h, Bool.false_eq_true, if_false]

/-- Core retry lemma: an eligible queue entry whose processing necessarily
fails at its turn (its audio file is already missing at drain start, or the
Transcription Client's answer for its path is a failure or blank) survives a
drain with its retry count incremented by one (given unique entry ids). -/
theorem drain_retries_failing_item (tr : String → TranscriptionResult) (clock : Nat → Nat)
    (s : SysState) (item : PendingTranscription)
    (hp : s.isProcessing = false)
    (hn : (s.queue.map (fun i => i.id)).Nodup)
    (hm : item ∈ s.queue)
    (hr : item.retryCount < item.maxRetries)
    (hfail : item.localAudioPath ∉ s.files ∨ ¬ trOk (tr item.localAudioPath)) :
    { item with retryCount := item.retryCount + 1 } ∈ (processQueue tr clock s).1.queue := by
  have hpend : item ∈ pendingOf s.queue := List.mem_filter.mpr ⟨hm, by simpa using hr⟩
  obtain ⟨L1, L2, hsplit⟩ := List.append_of_mem hpend
  have hsub : ((pendingOf s.queue).map (fun i => i.id)).Sublist (s.queue.map (fun i => i.id)) :=
    (List.filter_sublist _).map _
  have hnp : ((pendingOf s.queue).map (fun i => i.id)).Nodup := hn.sublist hsub
  rw [hsplit] at hnp
  simp only [List.map_append, List.map_cons, List.nodup_append, List.nodup_cons] at hnp
  have hL1 : ∀ e ∈ L1, e.id ≠ item.id := by
    intro e he heq
    exact hnp.2.2 (List.mem_map.mpr ⟨e, he, rfl⟩) (by rw [heq]; exact List.mem_cons_self _ _)
  have hL2 : ∀ e ∈ L2, e.id ≠ item.id := by
    intro e he heq
    exact hnp.2.1.1 (heq ▸ List.mem_map.mpr ⟨e, he, rfl⟩)
  rw [processQueue_eq_of_not_processing tr clock s hp]
  show _ ∈ ((pendingOf s.queue).foldl (drainStep tr clock)
    ⟨{ s with isProcessing := true }, [], 0⟩).st.queue
  rw [hsplit, List.foldl_append, List.foldl_cons]
  have hitem1 : item ∈
      (L1.foldl (drainStep tr clock) ⟨{ s with isProcessing := true }, [], 0⟩).st.queue :=
    foldl_drain_preserves_other tr clock item L1 hL1 _ hm
  have hfails : (processItem tr
      (clock (L1.foldl (drainStep tr clock) ⟨{ s with isProcessing := true }, [], 0⟩).k) item
      (L1.foldl (drainStep tr clock) ⟨{ s with isProcessing := true }, [], 0⟩).st.files
      (L1.foldl (drainStep tr clock) ⟨{ s with isProcessing := true }, [], 0⟩).st.jobs).ok = false := by
    rcases hfail with hmiss | hbad
    · refine processItem_ok_of_file_missing _ _ _ _ _ (fun hin => hmiss ?_)
      exact foldl_drain_files_subset tr clock L1 _ _ hin
    · exact processItem_ok_of_not_trOk _ _ _ _ _ hbad
  have hmem2 : { item with retryCount := item.retryCount + 1 } ∈
      (drainStep tr clock
        (L1.foldl (drainStep tr clock) ⟨{ s with isProcessing := true }, [], 0⟩) item).st.queue := by
    rw [drainStep_queue_of_fail tr clock item _ hfails]
    exact List.mem_map.mpr ⟨item, hitem1, by rw [if_pos rfl]⟩
  exact foldl_drain_preserves_other tr clock { item with retryCount := item.retryCount + 1 }
    L2 (fun e he => hL2 e he) _ hmem2

theorem queue_length_partition : ∀ (l : List PendingTranscription),
    l.length = (l.filter (fun i => i.retryCount < i.maxRetries)).length +
      (l.filter (fun i => i.retryCount ≥ i.maxRetries)).length
  | [] => rfl
  | i :: l => by
    have ih := queue_length_partition l
    simp only [ge_iff_le] at ih ⊢
    by_cases h : i.retryCount < i.maxRetries
    · simp only [List.filter_cons, List.length_cons, decide_eq_true_eq, h, if_true,
        Nat.not_le.mpr h, if_false]
      omega
    · simp only [List.filter_cons, List.length_cons, decide_eq_true_eq, h, if_false,
        Nat.le_of_not_lt h, if_true]
      omega

theorem processItem_of_missing (tr : String → TranscriptionResult) (now : Nat)
    (item : PendingTranscription) (files : List String) (jobs : List JobData)
    (hf : item.localAudioPath ∉ files) :
    processItem tr now item files jobs = ⟨false, files, jobs, []⟩ := by
  unfold processItem
  simp [hf]

theorem processItem_of_fail_called (tr : String → TranscriptionResult) (now : Nat)
    (item : PendingTranscription) (files : List String) (jobs : List JobData)
    (hf : item.localAudioPath ∈ files) (ht : ¬ trOk (tr item.localAudioPath)) :
    processItem tr now item files jobs = ⟨false, files, jobs, [item.localAudioPath]⟩ := by
  unfold processItem
  simp only [hf, if_true]
  rcases hs : (tr item.localAudioPath).success with _ | _
  · rcases he : (tr item.localAudioPath).text with _ | t <;> simp [hs, he]
  · rcases he : (tr item.localAudioPath).text with _ | t
    · simp [hs, he]
    · by_cases hb : jsTrim t = ""
      · simp [hs, he, hb]
      · exact absurd ⟨hs, t, he, hb⟩ ht

theorem processItem_of_ok (tr : String → TranscriptionResult) (now : Nat)
    (item : PendingTranscription) (files : List String) (jobs : List JobData) (t : String)
    (hf : item.localAudioPath ∈ files)
    (hs : (tr item.localAudioPath).success = true)
    (he : (tr item.localAudioPath).text = some t)
    (hb : jsTrim t ≠ "") :
    processItem tr now item files jobs =
      ⟨true, files.filter (fun p => p ≠ item.localAudioPath),
        reconcile now t item jobs, [item.localAudioPath]⟩ := by
  unfold processItem
  simp [hf, hs, he, hb]

theorem drainStep_of_ok (tr : String → TranscriptionResult) (clock : Nat → Nat)
    (e : PendingTranscription) (acc : DrainAcc)
    (h : (processItem tr (clock acc.k) e acc.st.files acc.st.jobs).ok = true) :
    drainStep tr clock acc e =
      ⟨⟨acc.st.queue.filter (fun j => j.id ≠ e.id),
          (processItem tr (clock acc.k) e acc.st.files acc.st.jobs).jobs,
          (processItem tr (clock acc.k) e acc.st.files acc.st.jobs).files,
          acc.st.isProcessing⟩,
        acc.calls ++ (processItem tr (clock acc.k) e acc.st.files acc.st.jobs).calls,
        acc.k + 1⟩ := by
  unfold drainStep
  simp only [h, if_true]

theorem drainStep_of_fail (tr : String → TranscriptionResult) (clock : Nat → Nat)
    (e : PendingTranscription) (acc : DrainAcc)
    (h : (processItem tr (clock acc.k) e acc.st.files acc.st.jobs).ok = false) :
    drainStep tr clock acc e =
      ⟨⟨acc.st.queue.map (fun j =>
            if j.id = e.id then { j with retryCount := j.retryCount + 1 } else j),
          acc.st.jobs, acc.st.files, acc.st.isProcessing⟩,
        acc.calls ++ (processItem tr (clock acc.k) e acc.st.files acc.st.jobs).calls,
        acc.k + 1⟩ := by
  unfold drainStep
  simp only [h, Bool.false_eq_true, if_false]

theorem processImmediately_of_fail (tr : String → TranscriptionResult) (uri : String)
    (queue : List PendingTranscription) (files : List String)
    (ht : ¬ trOk (tr uri)) :
    processImmediately tr uri queue files =
      ⟨StopOutcome.errorOutcome (jsOrDefault (tr uri).error "Transcription failed"),
        queue, files, true⟩ := by
  unfold processImmediately
  rcases hs : (tr uri).success with _ | _
  · rcases he : (tr uri).text with _ | t <;> simp [hs, he]
  · rcases he : (tr uri).text with _ | t
    · simp [hs, he]
    · by_cases hb : jsTrim t = ""
      · simp [hs, he, hb]
      · exact absurd ⟨hs, t, he, hb⟩ ht

theorem processImmediately_of_ok (tr : String → TranscriptionResult) (uri : String)
    (queue : List PendingTranscription) (files : List String) (t : String)
    (hs : (tr uri).success = true) (he : (tr uri).text = some t) (hb : jsTrim t ≠ "") :
    processImmediately tr uri queue files =
      ⟨StopOutcome.transcribed (jsTrim t), queue, files, true⟩ := by
  unfold processImmediately
  simp [hs, he, hb]

theorem processVoiceNote_append (now : Nat) (t : String) (item : PendingTranscription)
    (jobs : List JobData)
    (hfresh : jobs.any (fun x => x.id = toString now) = false) :
    processVoiceNote now t item jobs = jobs ++ [newVoiceJob now t item jobs] := by
  unfold processVoiceNote saveJob
  simp only [show (newVoiceJob now t item jobs).id = toString now from rfl, hfresh,
    Bool.false_eq_true, if_false]

/-- Claim C7: `getQueueStatus` classifies every entry as pending iff
`retryCount < maxRetries` and as failed iff `retryCount ≥ maxRetries`, with
`total = pending + failed` and a constant 0 completed count; an entry whose
retry count has reached its limit is not among the eligible entries of a
drain pass and survives any drain unchanged (given unique entry ids). -/
theorem queue_status_classification (tr : String → TranscriptionResult) (clock : Nat → Nat)
    (s : SysState) (item : PendingTranscription)
    (hp : s.isProcessing = false)
    (hn : (s.queue.map (fun i => i.id)).Nodup)
    (hm : item ∈ s.queue)
    (hf : item.maxRetries ≤ item.retryCount) :
    (getQueueStatus s.queue).total =
        (getQueueStatus s.queue).pending + (getQueueStatus s.queue).failed
    ∧ (getQueueStatus s.queue).completed = 0
    ∧ (∀ j ∈ s.queue, (j.retryCount < j.maxRetries ↔ j ∈ pendingOf s.queue))
    ∧ item ∉ pendingOf s.queue
    ∧ item ∈ (processQueue tr clock s).1.queue := by
  refine ⟨queue_length_partition s.queue, rfl, ?_, ?_, ?_⟩
  · intro j hj
    constructor
    · intro hlt
      exact List.mem_filter.mpr ⟨hj, by simpa using hlt⟩
    · intro hmem
      simpa using (List.mem_filter.mp hmem).2
  · intro hmem
    have := (List.mem_filter.mp hmem).2
    simp only [decide_eq_true_eq] at this
    omega
  · have hids : ∀ e ∈ pendingOf s.queue, e.id ≠ item.id := by
      intro e he heq
      have hequeue : e ∈ s.queue := (List.mem_filter.mp he).1
      have hpred := (List.mem_filter.mp he).2
      simp only [decide_eq_true_eq] at hpred
      have heqi : e = item := List.inj_on_of_nodup_map hn hequeue hm heq
      rw [heqi] at hpred
      omega
    rw [processQueue_eq_of_not_processing tr clock s hp]
    exact foldl_drain_preserves_other tr clock item (pendingOf s.queue) hids _ hm

/-- Claim C7 witness: concrete exhausted entry (retryCount = maxRetries = 3)
is classified failed, excluded from the eligible set, and survives a drain. -/
theorem queue_status_classification_witness :
    cexFailedItem ∉ pendingOf cexFailedState.queue
    ∧ cexFailedItem ∈ (processQueue cexTrHello (fun n => n) cexFailedState).1.queue :=
  ⟨(queue_status_classification cexTrHello (fun n => n) cexFailedState cexFailedItem
      rfl (by decide) (by decide) (by decide)).2.2.2.1,
    (queue_status_classification cexTrHello (fun n => n) cexFailedState cexFailedItem
      rfl (by decide) (by decide) (by decide)).2.2.2.2⟩

/-- Claim C8: drain is non-reentrant: when the in-memory `isProcessing` flag
is set, a drain call returns at once with the state untouched (the queue is
neither read nor modified) and no Transcription Client calls; and a drain
that does run clears the flag on completion, so a later drain can start. -/
theorem drain_nonreentrant (tr : String → TranscriptionResult) (clock : Nat → Nat)
    (s : SysState) :
    (s.isProcessing = true → processQueue tr clock s = (s, []))
    ∧ (s.isProcessing = false → (processQueue tr clock s).1.isProcessing = false) := by
  constructor
  · intro h
    unfold processQueue
    rw [h]
    simp
  · intro h
    rw [processQueue_eq_of_not_processing tr clock s h]

/-- Claim C8 witness: a drain call on a state whose flag is set is the
identity, and a drain from an idle state ends with the flag clear. -/
theorem drain_nonreentrant_witness :
    processQueue cexTrHello (fun n => n)
        { queue := [cexMissingItem], jobs := [], files := [], isProcessing := true } =
      ({ queue := [cexMissingItem], jobs := [], files := [], isProcessing := true }, [])
    ∧ (processQueue cexTrHello (fun n => n) cexMissingState).1.isProcessing = false :=
  ⟨(drain_nonreentrant cexTrHello (fun n => n)
      { queue := [cexMissingItem], jobs := [], files := [], isProcessing := true }).1 rfl,
    (drain_nonreentrant cexTrHello (fun n => n) cexMissingState).2 rfl⟩

/-- Claim C1 (amended): during a drain, an eligible entry whose durably stored
audio artifact no longer exists is NOT removed after the pass: it stays in
the queue with its retryCount incremented by one; the Transcription Client is
never called on its audio path (given unique entry ids). -/
theorem missing_file_entry_retried (tr : String → TranscriptionResult) (clock : Nat → Nat)
    (s : SysState) (item : PendingTranscription)
    (hp : s.isProcessing = false)
    (hn : (s.queue.map (fun i => i.id)).Nodup)
    (hm : item ∈ s.queue)
    (hr : item.retryCount < item.maxRetries)
    (hfile : item.localAudioPath ∉ s.files) :
    { item with retryCount := item.retryCount + 1 } ∈ (processQueue tr clock s).1.queue
    ∧ item.localAudioPath ∉ (processQueue tr clock s).2 := by
  refine ⟨drain_retries_failing_item tr clock s item hp hn hm hr (Or.inl hfile), ?_⟩
  rw [processQueue_eq_of_not_processing tr clock s hp]
  exact (foldl_drain_path_untouched tr clock item.localAudioPath (pendingOf s.queue)
    ⟨{ s with isProcessing := true }, [], 0⟩ hfile (by simp)).2

/-- Claim C1 witness: draining a single-entry queue whose audio file is gone
leaves the incremented entry queued and makes no Transcription Client call. -/
theorem missing_file_entry_retried_witness :
    { cexMissingItem with retryCount := cexMissingItem.retryCount + 1 } ∈
        (processQueue cexTrHello (fun n => n) cexMissingState).1.queue
    ∧ cexMissingItem.localAudioPath ∉ (processQueue cexTrHello (fun n => n) cexMissingState).2 :=
  missing_file_entry_retried cexTrHello (fun n => n) cexMissingState cexMissingItem
    rfl (by decide) (by decide) (by decide) (by decide)

/-- Claim C1 counterexample: the claim predicts that the entry with a missing
audio file is removed after one drain with its retryCount untouched; the code
instead keeps it queued with retryCount 1 (the Transcription Client is indeed
not called). -/
theorem missing_file_not_dropped_cex :
    processQueue cexTrHello (fun n => n) cexMissingState =
      ({ queue := [{ cexMissingItem with retryCount := 1 }], jobs := [], files := [],
          isProcessing := false }, []) := by
  decide

/-- Claim C10: a Transcription Client result with `success = true` but empty
or whitespace-only text is treated as a failure at both entry points: during
a drain the entry stays queued with retryCount incremented (instead of being
reconciled and removed), and during immediate online submission the call
surfaces an error outcome and leaves the queue untouched. -/
theorem blank_transcription_is_failure (tr : String → TranscriptionResult) (clock : Nat → Nat)
    (s : SysState) (item : PendingTranscription) (t : String)
    (hp : s.isProcessing = false)
    (hn : (s.queue.map (fun i => i.id)).Nodup)
    (hm : item ∈ s.queue)
    (hr : item.retryCount < item.maxRetries)
    (hsucc : (tr item.localAudioPath).success = true)
    (htext : (tr item.localAudioPath).text = some t)
    (hblank : jsTrim t = "")
    (now : Nat) (fs : String) (apiKey : Option String) (jt : QueueJobType)
    (si : Option Nat) (mj : Option String) (uri : String) (u : String)
    (queue : List PendingTranscription) (files : List String)
    (hkey : jsTruthy apiKey = true)
    (usucc : (tr uri).success = true)
    (utext : (tr uri).text = some u)
    (ublank : jsTrim u = "") :
    { item with retryCount := item.retryCount + 1 } ∈ (processQueue tr clock s).1.queue
    ∧ stopRecording tr now fs false apiKey jt si mj (some uri) queue files =
        ⟨StopOutcome.errorOutcome (jsOrDefault (tr uri).error "Transcription failed"),
          queue, files, true⟩ := by
  constructor
  · refine drain_retries_failing_item tr clock s item hp hn hm hr (Or.inr ?_)
    rintro ⟨-, t2, ht2, hnb2⟩
    rw [htext] at ht2
    cases ht2
    exact hnb2 hblank
  · show (if (false || !(jsTruthy apiKey)) = true then _ else processImmediately tr uri queue files) = _
    rw [hkey]
    simp only [Bool.not_true, Bool.or_false, Bool.false_eq_true, if_false]
    refine processImmediately_of_fail tr uri queue files ?_
    rintro ⟨-, t2, ht2, hnb2⟩
    rw [utext] at ht2
    cases ht2
    exact hnb2 ublank

/-- Claim C10 witness: a blank-text success answer leaves the single queued
entry with retryCount 1 during drain, and yields an error outcome with an
unchanged queue on immediate submission. -/
theorem blank_transcription_is_failure_witness :
    { cexBlankItem with retryCount := cexBlankItem.retryCount + 1 } ∈
        (processQueue cexTrBlank (fun n => n) cexBlankState).1.queue
    ∧ stopRecording cexTrBlank 9 "r9" false (some "key") QueueJobType.voice_note none none
        (some "u9") [] [] =
        ⟨StopOutcome.errorOutcome (jsOrDefault (cexTrBlank "u9").error "Transcription failed"),
          [], [], true⟩ :=
  blank_transcription_is_failure cexTrBlank (fun n => n) cexBlankState cexBlankItem "   "
    rfl (by decide) (by decide) (by decide) rfl rfl (by decide)
    9 "r9" (some "key") QueueJobType.voice_note none none "u9" "   " [] []
    (by decide) rfl rfl (by decide)

/-- Claim C5: `submit` (the hook's `stopRecording`) queues the recording iff
the device is offline or no transcription credential is configured; in that
case the Transcription Client is not called and the call returns the queued
outcome carrying the new entry's id.  When online with a credential the
recording is never enqueued: a failed or blank transcription surfaces an
error to the caller at once, a successful one returns the trimmed text. -/
theorem submit_offline_gating (tr : String → TranscriptionResult)
    (now : Nat) (fs : String) (isOffline : Bool) (apiKey : Option String)
    (jt : QueueJobType) (si : Option Nat) (mj : Option String) (uri : String)
    (queue : List PendingTranscription) (files : List String) :
    ((isOffline = true ∨ jsTruthy apiKey = false) →
      stopRecording tr now fs isOffline apiKey jt si mj (some uri) queue files =
        ⟨StopOutcome.queuedOutcome (toString now ++ "_" ++ fs) uri,
          queue ++ [⟨toString now ++ "_" ++ fs, uri,
            offlineAudioDir ++ "audio_" ++ (toString now ++ "_" ++ fs) ++ ".mp3",
            some now, jt, si, 0, 3, mj, mj⟩],
          files ++ [offlineAudioDir ++ "audio_" ++ (toString now ++ "_" ++ fs) ++ ".mp3"],
          false⟩)
    ∧ (isOffline = false → jsTruthy apiKey = true →
        (stopRecording tr now fs isOffline apiKey jt si mj (some uri) queue files).queue = queue
        ∧ (stopRecording tr now fs isOffline apiKey jt si mj (some uri) queue files).clientCalled
            = true
        ∧ (∀ qid u2, (stopRecording tr now fs isOffline apiKey jt si mj (some uri) queue
              files).outcome ≠ StopOutcome.queuedOutcome qid u2)
        ∧ (¬ trOk (tr uri) →
            stopRecording tr now fs isOffline apiKey jt si mj (some uri) queue files =
              ⟨StopOutcome.errorOutcome (jsOrDefault (tr uri).error "Transcription failed"),
                queue, files, true⟩)
        ∧ (∀ t2, (tr uri).success = true → (tr uri).text = some t2 → jsTrim t2 ≠ "" →
            stopRecording tr now fs isOffline apiKey jt si mj (some uri) queue files =
              ⟨StopOutcome.transcribed (jsTrim t2), queue, files, true⟩)) := by
  constructor
  · intro h
    show (if (isOffline || !(jsTruthy apiKey)) = true then _ else _) = _
    rcases h with h | h
    · rw [h]
      rfl
    · rw [h]
      simp
  · intro hoff hkey
    have hcond : stopRecording tr now fs isOffline apiKey jt si mj (some uri) queue files =
        processImmediately tr uri queue files := by
      show (if (isOffline || !(jsTruthy apiKey)) = true then _ else _) = _
      rw [hoff, hkey]
      rfl
    rw [hcond]
    by_cases htr : trOk (tr uri)
    · obtain ⟨hs, t2, ht2, hb2⟩ := htr
      rw [processImmediately_of_ok tr uri queue files t2 hs ht2 hb2]
      refine ⟨rfl, rfl, ?_, ?_, ?_⟩
      · intro qid u2 hcontra
        simp at hcontra
      · intro hcontra
        exact absurd ⟨hs, t2, ht2, hb2⟩ hcontra
      · intro t3 hs3 ht3 hb3
        rw [ht2] at ht3
        cases ht3
        rfl
    · rw [processImmediately_of_fail tr uri queue files htr]
      refine ⟨rfl, rfl, ?_, fun _ => rfl, ?_⟩
      · intro qid u2 hcontra
        simp at hcontra
      · intro t3 hs3 ht3 hb3
        exact absurd ⟨hs3, t3, ht3, hb3⟩ htr

/-- Claim C5 witness: offline submit with no credential produces the queued
outcome with the fresh entry id and no Transcription Client call; online
submit with a credential and a failing client surfaces the error without
enqueueing. -/
theorem submit_offline_gating_witness :
    stopRecording cexTrFailP2 5 "r1" true none QueueJobType.voice_note none none
        (some "u") [] [] =
      ⟨StopOutcome.queuedOutcome (toString 5 ++ "_" ++ "r1") "u",
        [⟨toString 5 ++ "_" ++ "r1", "u",
          offlineAudioDir ++ "audio_" ++ (toString 5 ++ "_" ++ "r1") ++ ".mp3",
          some 5, QueueJobType.voice_note, none, 0, 3, none, none⟩],
        [offlineAudioDir ++ "audio_" ++ (toString 5 ++ "_" ++ "r1") ++ ".mp3"],
        false⟩
    ∧ stopRecording cexTrFailP2 5 "r1" false (some "key") QueueJobType.voice_note none none
        (some "p2") [] [] =
      ⟨StopOutcome.errorOutcome (jsOrDefault (cexTrFailP2 "p2").error "Transcription failed"),
        [], [], true⟩ :=
  ⟨(submit_offline_gating cexTrFailP2 5 "r1" true none QueueJobType.voice_note none none
      "u" [] []).1 (Or.inl rfl),
    ((submit_offline_gating cexTrFailP2 5 "r1" false (some "key") QueueJobType.voice_note
      none none "p2" [] []).2 rfl (by decide)).2.2.2.1 (by decide)⟩

/-- Claim C2 (amended): when workflow-step reconciliation resolves a target
record and a known step index, the saved record is the updated record marked
completed exactly when the four fields customer, jobType, equipment and cost
are all free of the `"Pending Transcription"` and `"[Offline Recording"`
markers; the notes field (`additionalNotes`) is never examined by the check,
and the status is left unchanged when the check fails. -/
theorem completion_checks_four_fields (now : Nat) (t : String) (item : PendingTranscription)
    (jobs : List JobData) (j updated : JobData)
    (h1 : resolveTarget item jobs = some j)
    (h2 : applyStep item.stepIndex t j = some updated) :
    processWorkflowStep now t item jobs = saveJob (completeIfReady now updated) jobs
    ∧ ((completeIfReady now updated).status = JobStatus.completed ↔
        (allStepsProcessed updated = true ∨ updated.status = JobStatus.completed))
    ∧ (allStepsProcessed updated = false → completeIfReady now updated = updated)
    ∧ (∀ notes, allStepsProcessed { updated with additionalNotes := notes } =
        allStepsProcessed updated) := by
  refine ⟨?_, ?_, ?_, fun _ => rfl⟩
  · simp only [processWorkflowStep, h1, h2]
  · unfold completeIfReady
    by_cases hA : allStepsProcessed updated
    · simp [hA]
    · simp [hA]
  · intro hA
    unfold completeIfReady
    rw [hA]
    simp

/-- Claim C2 counterexample: applying the cost transcription (step 3) to a
pending record whose notes field still holds the literal placeholder marks
the record completed, even though the fifth field (notes) is unresolved; the
claim predicted completion only once all five fields are resolved. -/
theorem completion_ignores_notes_cex :
    processWorkflowStep 100 "120 euro" cexCostItem [cexPendingJob] =
      [{ cexPendingJob with
          cost := "120 euro"
          status := JobStatus.completed
          dateCompleted := some 100 }]
    ∧ cexPendingJob.additionalNotes = "Pending Transcription"
    ∧ ({ cexPendingJob with
          cost := "120 euro"
          status := JobStatus.completed
          dateCompleted := some 100 } : JobData).additionalNotes = "Pending Transcription" := by
  refine ⟨by decide, rfl, rfl⟩

/-- Claim C2 witness: the amended statement applied to the concrete pending
record `"A"` and its cost step. -/
theorem completion_checks_four_fields_witness :
    processWorkflowStep 100 "120 euro" cexCostItem [cexPendingJob] =
      saveJob (completeIfReady 100 { cexPendingJob with cost := "120 euro" }) [cexPendingJob] :=
  (completion_checks_four_fields 100 "120 euro" cexCostItem [cexPendingJob] cexPendingJob
    { cexPendingJob with cost := "120 euro" } (by decide) (by decide)).1

/-- Claim C3 (amended): standalone-note reconciliation never fills an existing
pending voice-note record: it always saves a freshly built completed record
(appended whenever no stored record collides with the fresh id), leaving
every existing record - pending voice notes included - unchanged. -/
theorem voice_note_always_creates_new (now : Nat) (t : String) (item : PendingTranscription)
    (jobs : List JobData)
    (hfresh : jobs.any (fun x => x.id = toString now) = false) :
    processVoiceNote now t item jobs = jobs ++ [newVoiceJob now t item jobs] :=
  processVoiceNote_append now t item jobs hfresh

/-- Claim C3 witness: the amended statement at a concrete store holding one
pending voice-note record. -/
theorem voice_note_always_creates_new_witness :
    processVoiceNote 100 "note text" cexVoiceItem [cexPendingVoice] =
      [cexPendingVoice] ++ [newVoiceJob 100 "note text" cexVoiceItem [cexPendingVoice]] :=
  voice_note_always_creates_new 100 "note text" cexVoiceItem [cexPendingVoice] (by decide)

/-- Claim C3 counterexample: with a pending voice-note record present
(status `pending_transcription`, jobType `"Voice Note"`), reconciling a
standalone note leaves that record untouched (its notes stay empty, its
status stays pending) and creates a brand-new record instead - the claim
predicted the pending record would be filled and no new record created. -/
theorem voice_note_pending_not_filled_cex :
    processVoiceNote 100 "hello world" cexVoiceItem [cexPendingVoice] =
      [cexPendingVoice, newVoiceJob 100 "hello world" cexVoiceItem [cexPendingVoice]]
    ∧ cexPendingVoice.status = JobStatus.pending_transcription
    ∧ cexPendingVoice.jobType = "Voice Note"
    ∧ cexPendingVoice.additionalNotes = ""
    ∧ (newVoiceJob 100 "hello world" cexVoiceItem [cexPendingVoice]).id ≠ cexPendingVoice.id := by
  refine ⟨by decide, rfl, rfl, rfl, by decide⟩

/-- Claim C4 (amended): the record created by standalone-note reconciliation
is named `"Voice Recording N"` where N is one plus the count of existing
records whose customer field starts with `"Voice Recording "` - irrespective
of their status or of whether they are completed voice notes; its createdAt
is backdated to the queue entry's enqueue timestamp and its status is
completed. -/
theorem voice_note_numbering_by_name_count (now ts : Nat) (t : String)
    (item : PendingTranscription) (jobs : List JobData)
    (hts : item.timestamp = some ts)
    (hfresh : jobs.any (fun x => x.id = toString now) = false) :
    processVoiceNote now t item jobs = jobs ++ [newVoiceJob now t item jobs]
    ∧ (newVoiceJob now t item jobs).customer =
        "Voice Recording " ++ toString (voiceRecordingCount jobs + 1)
    ∧ (newVoiceJob now t item jobs).dateCreated = ts
    ∧ (newVoiceJob now t item jobs).status = JobStatus.completed
    ∧ (newVoiceJob now t item jobs).additionalNotes = t :=
  ⟨processVoiceNote_append now t item jobs hfresh, rfl,
    by simp [newVoiceJob, hts], rfl, rfl⟩

/-- Claim C4 witness: with two completed voice-note records whose names carry
the `"Voice Recording "` naming scheme, draining one queued note yields a
record named `"Voice Recording 3"`, backdated to the entry's enqueue time. -/
theorem voice_note_numbering_by_name_count_witness :
    processVoiceNote 100 "note" cexVoiceItem2
        [{ cexMisnamedVoice with
            id := "c1"
            status := JobStatus.completed
            dateCompleted := some 21 },
          { cexMisnamedVoice with
            id := "c2"
            customer := "Voice Recording 2"
            status := JobStatus.completed
            dateCompleted := some 22 }] =
      [{ cexMisnamedVoice with
          id := "c1"
          status := JobStatus.completed
          dateCompleted := some 21 },
        { cexMisnamedVoice with
          id := "c2"
          customer := "Voice Recording 2"
          status := JobStatus.completed
          dateCompleted := some 22 }] ++
        [newVoiceJob 100 "note" cexVoiceItem2
          [{ cexMisnamedVoice with
              id := "c1"
              status := JobStatus.completed
              dateCompleted := some 21 },
            { cexMisnamedVoice with
              id := "c2"
              customer := "Voice Recording 2"
              status := JobStatus.completed
              dateCompleted := some 22 }]]
    ∧ (newVoiceJob 100 "note" cexVoiceItem2
        [{ cexMisnamedVoice with
            id := "c1"
            status := JobStatus.completed
            dateCompleted := some 21 },
          { cexMisnamedVoice with
            id := "c2"
            customer := "Voice Recording 2"
            status := JobStatus.completed
            dateCompleted := some 22 }]).customer = "Voice Recording 3" :=
  ⟨(voice_note_numbering_by_name_count 100 70 "note" cexVoiceItem2
      [{ cexMisnamedVoice with
          id := "c1"
          status := JobStatus.completed
          dateCompleted := some 21 },
        { cexMisnamedVoice with
          id := "c2"
          customer := "Voice Recording 2"
          status := JobStatus.completed
          dateCompleted := some 22 }] rfl (by decide)).1,
    by decide⟩

/-- Claim C4 counterexample: with a single record named `"Voice Recording 1"`
that is NOT a completed voice note (it is pending), the spec's rule (count of
existing completed voice-note records plus one) predicts the name
`"Voice Recording 1"`, but the code counts by the customer-name scheme and
produces `"Voice Recording 2"`. -/
theorem voice_note_numbering_cex :
    specCompletedVoiceNoteCount [cexMisnamedVoice] = 0
    ∧ processVoiceNote 100 "hi" cexVoiceItem2 [cexMisnamedVoice] =
        [cexMisnamedVoice, newVoiceJob 100 "hi" cexVoiceItem2 [cexMisnamedVoice]]
    ∧ (newVoiceJob 100 "hi" cexVoiceItem2 [cexMisnamedVoice]).customer = "Voice Recording 2"
    ∧ (newVoiceJob 100 "hi" cexVoiceItem2 [cexMisnamedVoice]).customer ≠
        "Voice Recording " ++ toString (specCompletedVoiceNoteCount [cexMisnamedVoice] + 1) := by
  refine ⟨by decide, by decide, by decide, by decide⟩

theorem update_customer_of_eq (j : JobData) (t : String) (h : j.customer = t) :
    ({ j with customer := t } : JobData) = j := by
  rw [← h]

theorem update_jobType_of_eq (j : JobData) (t : String) (h : j.jobType = t) :
    ({ j with jobType := t } : JobData) = j := by
  rw [← h]

theorem update_equipment_of_eq (j : JobData) (t : String) (h : j.equipment = t) :
    ({ j with equipment := t } : JobData) = j := by
  rw [← h]

theorem update_cost_of_eq (j : JobData) (t : String) (h : j.cost = t) :
    ({ j with cost := t } : JobData) = j := by
  rw [← h]

theorem update_notes_of_eq (j : JobData) (t : String) (h : j.additionalNotes = t) :
    ({ j with additionalNotes := t } : JobData) = j := by
  rw [← h]

theorem completeIfReady_id (now : Nat) (j : JobData) :
    (completeIfReady now j).id = j.id := by
  unfold completeIfReady
  split <;> rfl

theorem applyStep_id (si : Option Nat) (t : String) (j u : JobData)
    (h : applyStep si t j = some u) : u.id = j.id := by
  rcases si with _ | n
  · simp [applyStep] at h
  · rcases n with _ | _ | _ | _ | _ | n <;>
      simp only [applyStep, Option.some.injEq] at h <;>
      first
        | (subst h; rfl)
        | exact Option.noConfusion h

theorem completeIfReady_idem (now : Nat) (u : JobData) :
    completeIfReady now (completeIfReady now u) = completeIfReady now u := by
  unfold completeIfReady
  by_cases hA : allStepsProcessed u = true
  · rw [if_pos hA,
      if_pos (show allStepsProcessed
        { u with status := JobStatus.completed, dateCompleted := some now } = true from hA)]
  · rw [if_neg hA, if_neg hA]

theorem applyStep_self (now : Nat) (si : Option Nat) (t : String) (j u : JobData)
    (h : applyStep si t j = some u) :
    applyStep si t (completeIfReady now u) = some (completeIfReady now u) := by
  rcases si with _ | n
  · simp [applyStep] at h
  · rcases n with _ | _ | _ | _ | _ | n
    · simp only [applyStep, Option.some.injEq] at h ⊢
      subst h
      refine update_customer_of_eq _ _ ?_
      unfold completeIfReady
      split <;> rfl
    · simp only [applyStep, Option.some.injEq] at h ⊢
      subst h
      refine update_jobType_of_eq _ _ ?_
      unfold completeIfReady
      split <;> rfl
    · simp only [applyStep, Option.some.injEq] at h ⊢
      subst h
      refine update_equipment_of_eq _ _ ?_
      unfold completeIfReady
      split <;> rfl
    · simp only [applyStep, Option.some.injEq] at h ⊢
      subst h
      refine update_cost_of_eq _ _ ?_
      unfold completeIfReady
      split <;> rfl
    · simp only [applyStep, Option.some.injEq] at h ⊢
      subst h
      refine update_notes_of_eq _ _ ?_
      unfold completeIfReady
      split <;> rfl
    · simp [applyStep] at h

theorem saveJob_mem_replace (rec : JobData) (jobs : List JobData)
    (h : jobs.any (fun x => x.id = rec.id) = true) :
    saveJob rec jobs = jobs.map (fun x => if x.id = rec.id then rec else x) := by
  unfold saveJob
  rw [h]
  simp

theorem find?_map_replace (rec : JobData) :
    ∀ (jobs : List JobData), jobs.any (fun x => x.id = rec.id) = true →
      (jobs.map (fun x => if x.id = rec.id then rec else x)).find?
          (fun x => x.id == rec.id) = some rec
  | [], h => by simp at h
  | y :: ys, h => by
    by_cases hy : y.id = rec.id
    · simp [List.find?_cons, hy]
    · have hany : ys.any (fun x => x.id = rec.id) = true := by
        simp only [List.any_cons, hy, decide_eq_true_eq, Bool.false_or,
          decide_eq_false_iff_not] at h
        simpa using h
      have hbeq : (y.id == rec.id) = false := by simpa using hy
      simp only [List.map_cons, List.find?_cons, hy, if_false, hbeq]
      exact find?_map_replace rec ys hany

theorem any_map_replace (rec : JobData) (jobs : List JobData)
    (h : jobs.any (fun x => x.id = rec.id) = true) :
    (jobs.map (fun x => if x.id = rec.id then rec else x)).any
        (fun x => x.id = rec.id) = true := by
  induction jobs with
  | nil => simp at h
  | cons y ys ih =>
    by_cases hy : y.id = rec.id
    · simp [hy]
    · simp only [List.any_cons, hy, decide_eq_true_eq, Bool.false_or,
        decide_eq_false_iff_not] at h
      simp only [List.map_cons, hy, if_false, List.any_cons]
      rw [ih (by simpa using h)]
      simp

theorem map_replace_idem (rec : JobData) (jobs : List JobData) :
    (jobs.map (fun x => if x.id = rec.id then rec else x)).map
        (fun x => if x.id = rec.id then rec else x) =
      jobs.map (fun x => if x.id = rec.id then rec else x) := by
  rw [List.map_map]
  have hff : ((fun x : JobData => if x.id = rec.id then rec else x) ∘
      (fun x : JobData => if x.id = rec.id then rec else x)) =
      (fun x : JobData => if x.id = rec.id then rec else x) := by
    funext x
    by_cases hx : x.id = rec.id <;> simp [Function.comp, hx]
  rw [hff]

/-- Claim C9 (amended): workflow-step reconciliation is idempotent whenever
the queue entry's effective target job id is truthy and names an existing
record (the explicit-id resolution path): applying the same
(stepIndex, transcription, targetJobId) twice with the same clock reading
yields exactly the store produced by the first application.  (The
most-recent-pending fallback path is NOT idempotent - see the
counterexample.) -/
theorem workflow_step_idempotent_by_id (now : Nat) (t : String) (item : PendingTranscription)
    (jobs : List JobData) (tid : String) (j : JobData)
    (htid : effectiveTargetId item = some tid) (hne : tid ≠ "")
    (hfind : jobs.find? (fun x => x.id == tid) = some j) :
    processWorkflowStep now t item (processWorkflowStep now t item jobs) =
      processWorkflowStep now t item jobs := by
  have hresolve : resolveTarget item jobs = some j := by
    unfold resolveTarget
    rw [htid]
    simp [hne, hfind]
  have hjid : j.id = tid := by
    have := List.find?_some hfind
    simpa using this
  have hjmem : j ∈ jobs := List.mem_of_find?_eq_some hfind
  cases happ : applyStep item.stepIndex t j with
  | none =>
    have h1 : processWorkflowStep now t item jobs = jobs := by
      simp only [processWorkflowStep, hresolve, happ]
    rw [h1]
    exact h1
  | some u =>
    have huid : u.id = j.id := applyStep_id _ _ _ _ happ
    have hrecid : (completeIfReady now u).id = j.id := by
      rw [completeIfReady_id]
      exact huid
    have hany : jobs.any (fun x => x.id = (completeIfReady now u).id) = true :=
      List.any_eq_true.mpr ⟨j, hjmem, by simp [hrecid]⟩
    have h1 : processWorkflowStep now t item jobs =
        jobs.map (fun x => if x.id = (completeIfReady now u).id then completeIfReady now u
          else x) := by
      simp only [processWorkflowStep, hresolve, happ]
      exact saveJob_mem_replace (completeIfReady now u) jobs hany
    have htid_rec : tid = (completeIfReady now u).id := by rw [hrecid, hjid]
    have hfind2 : (jobs.map (fun x => if x.id = (completeIfReady now u).id then
        completeIfReady now u else x)).find? (fun x => x.id == tid) =
        some (completeIfReady now u) := by
      rw [htid_rec]
      exact find?_map_replace (completeIfReady now u) jobs hany
    have hresolve2 : resolveTarget item (jobs.map (fun x =>
        if x.id = (completeIfReady now u).id then completeIfReady now u else x)) =
        some (completeIfReady now u) := by
      unfold resolveTarget
      rw [htid]
      simp [hne, hfind2]
    have happ2 : applyStep item.stepIndex t (completeIfReady now u) =
        some (completeIfReady now u) := applyStep_self now _ t j u happ
    have hany2 : (jobs.map (fun x => if x.id = (completeIfReady now u).id then
        completeIfReady now u else x)).any
        (fun x => x.id = (completeIfReady now u).id) = true :=
      any_map_replace (completeIfReady now u) jobs hany
    rw [h1]
    simp only [processWorkflowStep, hresolve2, happ2, completeIfReady_idem]
    rw [saveJob_mem_replace (completeIfReady now u) _ hany2]
    exact map_replace_idem (completeIfReady now u) jobs

/-- Claim C9 witness: the amended idempotence at a concrete store: the
cost-step entry explicitly targeting job `"W"` applied twice equals it
applied once. -/
theorem workflow_step_idempotent_by_id_witness :
    processWorkflowStep 100 "80 euro" cexItemW
        (processWorkflowStep 100 "80 euro" cexItemW [cexJobW]) =
      processWorkflowStep 100 "80 euro" cexItemW [cexJobW] :=
  workflow_step_idempotent_by_id 100 "80 euro" cexItemW [cexJobW] "W" cexJobW
    rfl (by decide) (by decide)

/-- Claim C9 counterexample: with no explicit target id (fallback resolution
by most-recent pending record) reconciliation is NOT idempotent: the first
application completes the most recent pending job `"A"`, so the second
application falls through to the other pending job `"B"` and mutates it,
producing a different store. -/
theorem workflow_step_not_idempotent_cex :
    processWorkflowStep 100 "100 euro" cexFallbackItem
        (processWorkflowStep 100 "100 euro" cexFallbackItem [cexJobRecent, cexJobOlder]) ≠
      processWorkflowStep 100 "100 euro" cexFallbackItem [cexJobRecent, cexJobOlder] := by
  decide

/-- Claim C6: a drain call processes the eligible entries in insertion order
(the Transcription Client call log is exactly the entries' paths in enqueue
order) and per-entry failures are isolated: with three eligible entries whose
client answers succeed, fail and succeed respectively, the 1st and 3rd are
removed while the 2nd remains queued with retryCount 1; `processQueue` is a
total function, so no error escapes the drain. -/
theorem drain_fifo_isolation (tr : String → TranscriptionResult) (clock : Nat → Nat)
    (e1 e2 e3 : PendingTranscription) (jobs : List JobData) (files : List String)
    (hid12 : e1.id ≠ e2.id) (hid13 : e1.id ≠ e3.id) (hid23 : e2.id ≠ e3.id)
    (hpath12 : e1.localAudioPath ≠ e2.localAudioPath)
    (hpath13 : e1.localAudioPath ≠ e3.localAudioPath)
    (hr1 : e1.retryCount < e1.maxRetries)
    (hr2 : e2.retryCount = 0) (hr2m : 0 < e2.maxRetries)
    (hr3 : e3.retryCount < e3.maxRetries)
    (hf1 : e1.localAudioPath ∈ files) (hf2 : e2.localAudioPath ∈ files)
    (hf3 : e3.localAudioPath ∈ files)
    (ht1 : trOk (tr e1.localAudioPath))
    (ht2 : ¬ trOk (tr e2.localAudioPath))
    (ht3 : trOk (tr e3.localAudioPath)) :
    (processQueue tr clock ⟨[e1, e2, e3], jobs, files, false⟩).1.queue =
        [{ e2 with retryCount := 1 }]
    ∧ (processQueue tr clock ⟨[e1, e2, e3], jobs, files, false⟩).2 =
        [e1.localAudioPath, e2.localAudioPath, e3.localAudioPath] := by
  obtain ⟨hs1, t1, htx1, hb1⟩ := ht1
  obtain ⟨hs3, t3, htx3, hb3⟩ := ht3
  have hr2lt : e2.retryCount < e2.maxRetries := by omega
  have hi21 : e2.id ≠ e1.id := Ne.symm hid12
  have hi31 : e3.id ≠ e1.id := Ne.symm hid13
  have hi32 : e3.id ≠ e2.id := Ne.symm hid23
  have hp21 : e2.localAudioPath ≠ e1.localAudioPath := Ne.symm hpath12
  have hp31 : e3.localAudioPath ≠ e1.localAudioPath := Ne.symm hpath13
  have hP1 := processItem_of_ok tr (clock 0) e1 files jobs t1 hf1 hs1 htx1 hb1
  have hf2' : e2.localAudioPath ∈ files.filter (fun p => p ≠ e1.localAudioPath) :=
    List.mem_filter.mpr ⟨hf2, by simpa using hp21⟩
  have hP2 := processItem_of_fail_called tr (clock 1) e2
    (files.filter (fun p => p ≠ e1.localAudioPath)) (reconcile (clock 0) t1 e1 jobs) hf2' ht2
  have hf3' : e3.localAudioPath ∈ files.filter (fun p => p ≠ e1.localAudioPath) :=
    List.mem_filter.mpr ⟨hf3, by simpa using hp31⟩
  have hP3 := processItem_of_ok tr (clock 2) e3
    (files.filter (fun p => p ≠ e1.localAudioPath)) (reconcile (clock 0) t1 e1 jobs)
    t3 hf3' hs3 htx3 hb3
  simp only [ne_eq, decide_not] at hP1 hP2 hP3
  rw [processQueue_eq_of_not_processing tr clock _ rfl]
  have hpend : pendingOf [e1, e2, e3] = [e1, e2, e3] := by
    simp [pendingOf, hr1, hr2lt, hr3]
  refine ⟨?_, ?_⟩ <;>
    simp [hpend, drainStep, hP1, hP2, hP3, hi21, hi31, hi32, hid12, hid13, hid23, hr2]

/-- Claim C6 witness: concrete three-entry drain where the client fails only
for the 2nd entry: entries 1 and 3 are removed, entry 2 remains queued with
retryCount 1 and the call log is the three paths in enqueue order. -/
theorem drain_fifo_isolation_witness :
    (processQueue cexTrFailP2 (fun n => n)
        ⟨[cexEntry1, cexEntry2, cexEntry3], [], ["p1", "p2", "p3"], false⟩).1.queue =
      [{ cexEntry2 with retryCount := 1 }]
    ∧ (processQueue cexTrFailP2 (fun n => n)
        ⟨[cexEntry1, cexEntry2, cexEntry3], [], ["p1", "p2", "p3"], false⟩).2 =
      [cexEntry1.localAudioPath, cexEntry2.localAudioPath, cexEntry3.localAudioPath] :=
  drain_fifo_isolation cexTrFailP2 (fun n => n) cexEntry1 cexEntry2 cexEntry3 []
    ["p1", "p2", "p3"] (by decide) (by decide) (by decide) (by decide) (by decide)
    (by decide) (by decide) (by decide) (by decide) (by decide) (by decide) (by decide)
    (by decide) (by decide) (by decide)
